import Mathlib

/-!
Shallow embedding of the repository-service-tuf-cli sources:

* `src/repository_service_tuf/cli/admin/import_targets.py` — the
  target import pipeline (`_parse_csv_data`, `_import_csv_to_rstuf`,
  `import_targets`);
* `src/repository_service_tuf/cli/admin/delegations/new.py` — the `new`
  delegation command (dry-run / local-output / remote-submission logic);
* the root metadata update ceremony and `get_latest_md`, whose module is
  not among the shipped sources (only its test suite is); those parts are
  modelled from the specification and are marked as such below.

Python exceptions become `Except`/`Option` values, the relational store
becomes an explicit record of committed and staged rows, and console or
network side effects become entries of an explicit action trace.
-/

namespace Rstuf

/-! ### Python string primitives used by `import_targets.py` -/

/-- Splitting a character list on a separator, accumulator style.
Mirrors Python `str.split(sep)` for a one-character separator:
`"".split(";") == [""]` and trailing separators yield empty fields. -/
def splitAux (sep : Char) : List Char → List Char → List (List Char)
  | [], acc => [acc.reverse]
  | c :: rest, acc =>
    if c == sep then acc.reverse :: splitAux sep rest []
    else splitAux sep rest (c :: acc)

/-- Python `line.split(sep)` for a one-character separator. -/
def pySplit (s : String) (sep : Char) : List String :=
  (splitAux sep s.data []).map String.mk

/-- The whitespace characters stripped by Python `int(str)`. -/
def pySpace (c : Char) : Bool :=
  c == ' ' || c == '\t' || c == '\n' || c == '\r' || c == '\x0b' || c == '\x0c'

/-- Strip leading and trailing whitespace, as Python `str.strip()`. -/
def pyStrip (l : List Char) : List Char :=
  ((l.dropWhile pySpace).reverse.dropWhile pySpace).reverse

/-- Value of a nonempty all-decimal-digit character list. -/
def digitsToNat (l : List Char) : Nat :=
  l.foldl (fun a c => a * 10 + (c.toNat - 48)) 0

/-- Continuation of a digit run after a digit was just consumed: more
digits, with single underscores allowed strictly between digits, as in
Python numeric literals (`1_0` is valid, `1_`, `1__0` are not). -/
def digitsUnd : List Char → Bool
  | [] => true
  | c :: rest =>
    if c.isDigit then digitsUnd rest
    else if c == '_' then
      match rest with
      | [] => false
      | d :: rest2 => d.isDigit && digitsUnd rest2
    else false

/-- Digit-run part of Python `int(str)`: a leading digit followed by
digits with optional single underscore separators; the underscores are
dropped before taking the value. -/
def natPart (l : List Char) : Option Nat :=
  match l with
  | [] => none
  | c :: rest =>
    if c.isDigit && digitsUnd rest then
      some (digitsToNat (l.filter (fun x => !(x == '_'))))
    else none

/-- Python `int(str)`: optional surrounding whitespace, optional sign,
then a nonempty digit run with optional underscore digit-group
separators; anything else raises `ValueError`.  (Non-ASCII digit
characters that Python's `int` also accepts are not modelled; no claim
touches them.) -/
def pyInt (s : String) : Option Int :=
  match pyStrip s.data with
  | '+' :: rest => (natPart rest).map (fun n => (n : Int))
  | '-' :: rest => (natPart rest).map (fun n => -(n : Int))
  | l => (natPart l).map (fun n => (n : Int))

/-- Bool test: `pat` is a prefix of `s`. -/
def isPre : List Char → List Char → Bool
  | [], _ => true
  | _ :: _, [] => false
  | a :: as, b :: bs => a == b && isPre as bs

/-- Bool test: `pat` occurs as a contiguous substring. -/
def isSub (pat : List Char) : List Char → Bool
  | [] => isPre pat []
  | c :: rest => isPre pat (c :: rest) || isSub pat rest

/-- String containment, used to express that an error message names
(or fails to name) a given source file. -/
def strContains (s pat : String) : Bool := isSub pat.data s.data

/-! ### Succinct delegation (hash-bin assignment)

Modelled from the spec: `SuccinctRoles.get_role_for_target` lives in the
external tuf library (`repository_service_tuf.helpers.tuf` only re-exports
it); only its call site in `_parse_csv_data` is among the shipped sources.
The spec describes it as a pure deterministic hash of the target path
selecting one of `2^bit_length` bins, each bin named by a fixed-width
ordinal suffix on the delegation's name prefix.  The library's sha256 is
modelled by an executable rolling byte hash with the same signature and
the same spec-relevant properties. -/

/-- One step of the modelled path hash: absorb one character (as a byte)
into a 32-bit rolling value. -/
def hashStep (h : Nat) (c : Char) : Nat := (h * 256 + c.toNat % 256) % 2 ^ 32

/-- Modelled from the spec: the deterministic hash of a target path. -/
def pathHash (p : String) : Nat := p.data.foldl hashStep 0

/-- Number of hex digits of a bin ordinal for a given bit length
(fixed width: `(b-1) // 4 + 1`). -/
def suffixLen (b : Nat) : Nat := (b - 1) / 4 + 1

/-- Lower-case hex digit for `n < 16`. -/
def hexDigitChar (n : Nat) : Char :=
  if n < 10 then Char.ofNat (48 + n) else Char.ofNat (87 + n)

/-- Big-endian fixed-width hex rendering of `n` with `w` digits. -/
def hexFixed : Nat → Nat → List Char
  | 0, _ => []
  | w + 1, n => hexFixed w (n / 16) ++ [hexDigitChar (n % 16)]

/-- Succinct delegation configuration: bit length and name prefix. -/
structure SuccinctRoles where
  bit_length : Nat
  name_pfx : String
deriving DecidableEq

/-- Rolename of the bin with ordinal `m`. -/
def binName (sr : SuccinctRoles) (m : Nat) : String :=
  sr.name_pfx ++ "-" ++ String.mk (hexFixed (suffixLen sr.bit_length) m)

/-- Modelled from the spec: `assign_bin` / `get_role_for_target`, mapping
a target path to one of the `2^bit_length` bin rolenames. -/
def get_role_for_target (sr : SuccinctRoles) (p : String) : String :=
  binName sr (pathHash p % 2 ^ sr.bit_length)

/-- Big-endian base-256 encoding of `n` into `w` characters; used to
exhibit a path hitting any prescribed bin. -/
def encodeNatPath : Nat → Nat → List Char
  | 0, _ => []
  | w + 1, n => encodeNatPath w (n / 256) ++ [Char.ofNat (n % 256)]

/-! ### `_parse_csv_data` (import_targets.py, lines 37-59) -/

/-- Python exceptions that `_parse_csv_data` can raise: `IndexError`
from `line.split(";")[i]` and `ValueError` from `int(...)`. -/
inductive PyErr where
  | indexError
  | valueError (literal : String)
deriving DecidableEq

/-- Message carried by the Python exception.  Neither message mentions
the CSV file being parsed. -/
def pyMsg : PyErr → String
  | .indexError => "list index out of range"
  | .valueError s => "invalid literal for int() with base 10: \x27" ++ s ++ "\x27"

/-- `line.split(";")[i]`: `IndexError` when out of range. -/
def pyIndex (l : List String) (i : Nat) : Except PyErr String :=
  match l[i]? with
  | some s => Except.ok s
  | none => Except.error PyErr.indexError

/-- `int(s)`: `ValueError` when `s` is not an integer literal. -/
def pyToInt (s : String) : Except PyErr Int :=
  match pyInt s with
  | some n => Except.ok n
  | none => Except.error (PyErr.valueError s)

/-- The `info` sub-dictionary of a staged row. -/
structure TargetInfo where
  length : Int
  hashes : List (String × String)
deriving DecidableEq

/-- One staged row of the `rstuf_targets` table (the wall-clock
`last_update` column is outside the embedding). -/
structure TargetRecord where
  path : String
  info : TargetInfo
  rolename : String
  published : Bool
  action : String
deriving DecidableEq

/-- One loop iteration of `_parse_csv_data`: field accesses and the
`int` conversion happen in the evaluation order of the dict literal
(`[0]`, `int([1])`, `[2]`, `[3]`, then the bin assignment). -/
def parseLine (sr : SuccinctRoles) (line : String) : Except PyErr TargetRecord := do
  let fs := pySplit line ';'
  let path := fs.headD ""
  let lenStr ← pyIndex fs 1
  let len ← pyToInt lenStr
  let alg ← pyIndex fs 2
  let hv ← pyIndex fs 3
  Except.ok
    { path := path
      info := { length := len, hashes := [(alg, hv)] }
      rolename := get_role_for_target sr path
      published := false
      action := "ADD" }

/-- `_parse_csv_data`: parse every line of one CSV source in order; the
first raising line aborts the whole source with its exception, and the
row list built so far is discarded. -/
def parseCsvData (sr : SuccinctRoles) : List String →
    Except PyErr (List TargetRecord)
  | [] => Except.ok []
  | l :: rest => do
    let r ← parseLine sr l
    let rs ← parseCsvData sr rest
    Except.ok (r :: rs)

/-- Decidable test for the lines that make `_parse_csv_data` raise:
fewer than four `;`-separated fields, or a second field that the
modelled `int` (`pyInt`) rejects.  A line with more than four fields is
not malformed for the code — the extra fields are silently ignored
(see `parse_line_fields`). -/
def malformedLine (l : String) : Bool :=
  let fs := pySplit l ';'
  decide (fs.length < 4) ||
    (match fs[1]? with
     | none => true
     | some s => (pyInt s).isNone)

/-! ### The store and `_import_csv_to_rstuf` / `import_targets`
(import_targets.py, lines 62-171) -/

/-- The `rstuf_targets` table as seen through one connection:
`committed` rows are visible to everyone, `staged` rows were inserted in
the current (not yet committed) transaction. -/
structure DB where
  committed : List TargetRecord
  staged : List TargetRecord
deriving DecidableEq

/-- Errors of the import run; `click.ClickException`s plus the two
propagated Python exceptions. -/
inductive RunErr where
  | notFound
  | malformed (e : PyErr)
  | dup
  | publishFailed (body : String)
deriving DecidableEq

/-- Message of each run error, as printed to the operator. -/
def errMsg : RunErr → String
  | .notFound => "RSTUF Metadata Targets not found."
  | .malformed e => pyMsg e
  | .dup => "Import status: ABORTED due duplicated targets. CSV files must to have unique targets (path). No data added to RSTUF DB."
  | .publishFailed body => "Failed to publish targets. " ++ body

/-- All paths visible to the connection (committed plus staged). -/
def dbPaths (db : DB) : List String :=
  (db.committed ++ db.staged).map (fun r => r.path)

/-- `db_client.execute(rstuf_table.insert(), rows)`: stages the rows, or
raises `IntegrityError` (re-raised as the duplicate-targets
`ClickException`) when the uniqueness constraint on `path` is violated
against committed rows, previously staged rows, or within the batch. -/
def dbExecute (db : DB) (rows : List TargetRecord) : Except RunErr DB :=
  if (dbPaths db ++ rows.map (fun r => r.path)).Nodup then
    Except.ok { committed := db.committed, staged := db.staged ++ rows }
  else Except.error RunErr.dup

/-- Externally visible steps of the import command. -/
inductive Act where
  | fetchBinMd
  | parseBody
  | executeFile (name : String)
  | commit
  | publishRequest
  | taskPoll (taskId : String)
deriving DecidableEq

/-- `_import_csv_to_rstuf`: parse and stage each CSV source in order;
the trace records each `db_client.execute` call that was issued. -/
def stageAll (sr : SuccinctRoles) : DB → List (String × List String) →
    List Act × Except RunErr DB
  | db, [] => ([], Except.ok db)
  | db, (name, lines) :: rest =>
    match parseCsvData sr lines with
    | Except.error e => ([], Except.error (RunErr.malformed e))
    | Except.ok rows =>
      match dbExecute db rows with
      | Except.error e => ([Act.executeFile name], Except.error e)
      | Except.ok db2 =>
        let (acts, res) := stageAll sr db2 rest
        (Act.executeFile name :: acts, res)

/-- HTTP response of `request_server(metadata_url, "1.bin.json", get)`. -/
structure HttpResponse where
  status : Nat
  text : String
deriving DecidableEq

/-- HTTP response of the publish-targets POST; `taskId` models
`response.json()["data"]["task_id"]`. -/
structure PubResponse where
  status : Nat
  text : String
  taskId : String
deriving DecidableEq

/-- Outcome of one `import_targets` invocation. -/
structure ImportResult where
  trace : List Act
  err : Option RunErr
  committed : List TargetRecord
deriving DecidableEq

/-- `import_targets` from the bin-metadata fetch onward (the login and
engine-setup plumbing above line 128 touches only external
collaborators).  Note the source checks only `status_code == 404` on the
fetched response; any other status proceeds to `json.loads` of the body,
which is modelled by the `parseBody` trace entry (`sr` standing for the
parsed `succinct_roles`).  Staging happens per source; `db_client.commit()`
runs once, only after every source staged. -/
def importTargetsCmd (resp : HttpResponse) (sr : SuccinctRoles) (db : DB)
    (files : List (String × List String)) (skipPublish : Bool)
    (pub : PubResponse) : ImportResult :=
  if resp.status == 404 then
    { trace := [Act.fetchBinMd], err := some RunErr.notFound,
      committed := db.committed }
  else
    match stageAll sr { committed := db.committed, staged := [] } files with
    | (acts, Except.error e) =>
      { trace := Act.fetchBinMd :: Act.parseBody :: acts, err := some e,
        committed := db.committed }
    | (acts, Except.ok db2) =>
      let base := Act.fetchBinMd :: Act.parseBody :: (acts ++ [Act.commit])
      let comm := db2.committed ++ db2.staged
      if skipPublish then { trace := base, err := none, committed := comm }
      else if pub.status == 202 then
        { trace := base ++ [Act.publishRequest, Act.taskPoll pub.taskId],
          err := none, committed := comm }
      else
        { trace := base ++ [Act.publishRequest],
          err := some (RunErr.publishFailed pub.text), committed := comm }

/-! ### `new` (delegations/new.py) -/

/-- Externally visible deposits of the `new` delegation command. -/
inductive NewAct where
  | writeLocal (path : String)
  | sendPayload
  | pollTask
deriving DecidableEq

/-- Python truthiness of `settings.get("SERVER")`. -/
def pyTruthy : Option String → Bool
  | none => false
  | some s => !(s == "")

/-- Whether a deposit is the local file write. -/
def isWriteLocal : NewAct → Bool
  | NewAct.writeLocal _ => true
  | _ => false

/-- The `new` command: usage error when no server is configured and
dry-run is off; otherwise write locally when `--out` was given, and send
to the API (then poll) when a server is configured and dry-run is off. -/
def newCmd (server : Option String) (dryRun : Bool) (out : Option String) :
    Except String (List NewAct) :=
  if server == none && !dryRun then
    Except.error ("Either \x27--api-sever\x27 admin option/\x27SERVER\x27 in RSTUF config or \x27--dry-run\x27 needed")
  else
    let acts := match out with
      | some p => [NewAct.writeLocal p]
      | none => []
    if pyTruthy server && !dryRun then
      Except.ok (acts ++ [NewAct.sendPayload, NewAct.pollTask])
    else Except.ok acts

/-! ### Root update ceremony

Modelled from the spec: the ceremony module (`cli/admin/update.py`) is not
among the shipped sources — only its test suite is.  The model follows
spec sections 4.1 and 4.2: role sets with thresholds, validated edits,
the dual old-and-new threshold requirement with overlap counted once, and
the emitted version incrementing the source version. -/

/-- A named role's key ids plus required-signature threshold. -/
structure RoleSet where
  keys : List String
  threshold : Nat
deriving DecidableEq

/-- A root metadata version (signatures are carried separately by the
ceremony result). -/
structure RootMd where
  version : Nat
  expiry : Nat
  rootRole : RoleSet
  onlineRole : RoleSet
deriving DecidableEq

/-- Validation errors of the interactive edit loop (spec section 4.2). -/
inductive CeremonyErr where
  | duplicateKey
  | insufficientKeys
  | invalidThreshold
deriving DecidableEq

/-- One operator edit of a role set. -/
inductive Mutation where
  | addKey (k : String)
  | removeKey (k : String)
  | setThreshold (n : Nat)
deriving DecidableEq

/-- Modelled from the spec: each edit is validated as it is applied —
duplicate ids are rejected, removals may not drop the key count below
the threshold, and thresholds must stay within `[1, key_count]`. -/
def applyMutation (r : RoleSet) (m : Mutation) : Except CeremonyErr RoleSet :=
  match m with
  | Mutation.addKey k =>
    if r.keys.contains k then Except.error CeremonyErr.duplicateKey
    else Except.ok { r with keys := r.keys ++ [k] }
  | Mutation.removeKey k =>
    let keys2 := r.keys.filter (fun x => !(x == k))
    if keys2.length < r.threshold then Except.error CeremonyErr.insufficientKeys
    else Except.ok { r with keys := keys2 }
  | Mutation.setThreshold n =>
    if n < 1 || r.keys.length < n then Except.error CeremonyErr.invalidThreshold
    else Except.ok { r with threshold := n }

/-- Number of distinct signing keys of `sigs` that belong to a role's
key set; a key id shared by two roles contributes to both counts with a
single signature. -/
def distinctIn (sigs keys : List String) : Nat :=
  ((sigs.filter (fun s => keys.contains s)).dedup).length

/-- A signature set satisfies a role when its distinct keys within the
role's key set reach the threshold. -/
def meetsThreshold (sigs : List String) (r : RoleSet) : Bool :=
  decide (r.threshold ≤ distinctIn sigs r.keys)

/-- Modelled from the spec: the required signature set is the union of
the old and the new root role's key sets. -/
def requiredKeys (oldRole newRole : RoleSet) : List String :=
  (oldRole.keys ++ newRole.keys).dedup

/-- Outcome of one ceremony run: the emitted metadata, the accumulated
signatures, and whether the rotation is complete (as opposed to the
valid pending state). -/
structure CeremonyResult where
  md : RootMd
  sigs : List String
  completed : Bool
deriving DecidableEq

/-- Modelled from the spec: run one ceremony — apply the operator's root
role edits, optionally replace the online role and the expiry, emit
version `src.version + 1`, collect signatures from the required keys
whose private material is available, and report the rotation complete
exactly when the collected signatures satisfy both the old and the new
threshold. -/
def runCeremony (src : RootMd) (rootMuts : List Mutation)
    (newOnline : Option RoleSet) (newExpiry : Option Nat)
    (avail : List String) : Except CeremonyErr CeremonyResult := do
  let newRoot ← rootMuts.foldlM applyMutation src.rootRole
  let md : RootMd :=
    { version := src.version + 1
      expiry := newExpiry.getD src.expiry
      rootRole := newRoot
      onlineRole := newOnline.getD src.onlineRole }
  let sigs := (requiredKeys src.rootRole newRoot).filter (fun k => avail.contains k)
  Except.ok
    { md := md
      sigs := sigs
      completed := meetsThreshold sigs src.rootRole && meetsThreshold sigs md.rootRole }

/-! ### `get_latest_md`

Modelled from the spec: `get_latest_md` also lives in the missing
ceremony module; its tests show a GET of `{url}/1.root.json` with
`timeout=300`, a `ClickException` starting with "Cannot fetch initial
root" on a non-success status and one starting with "Problem fetching
latest" on a transport exception, and the spec fixes the retry bound at
three attempts before the fetch error is surfaced. -/

/-- Environment's answer to one fetch attempt. -/
inductive FetchOutcome where
  | ok (body : String)
  | httpFail (status : Nat)
  | transportExc
deriving DecidableEq

/-- One issued GET request. -/
structure FetchReq where
  url : String
  timeout : Nat
deriving DecidableEq

/-- Fatal fetch errors: HTTP non-success vs transport exception. -/
inductive FetchErr where
  | http (url : String)
  | transport (filename : String)
deriving DecidableEq

/-- Operator-visible message of a fetch error. -/
def fetchMsg : FetchErr → String
  | FetchErr.http u => "Cannot fetch initial root " ++ u
  | FetchErr.transport f => "Problem fetching latest " ++ f

/-- Modelled from the spec: the bounded fetch loop.  `fuel` is the
number of attempts still allowed, `i` indexes the environment; every
attempt issues one request with a 300 time-unit timeout, a 200 outcome
returns the body, and once the attempts are exhausted the last failure
kind picks the fatal error. -/
def fetchAttempts (url fname : String) (env : Nat → FetchOutcome) :
    Nat → Nat → List FetchReq × Except FetchErr String
  | 0, _ => ([], Except.error (FetchErr.transport fname))
  | fuel + 1, i =>
    let req : FetchReq := { url := url ++ "/1.root.json", timeout := 300 }
    match env i with
    | FetchOutcome.ok body => ([req], Except.ok body)
    | FetchOutcome.httpFail _ =>
      if fuel == 0 then ([req], Except.error (FetchErr.http (url ++ "/1.root.json")))
      else
        let (rs, r) := fetchAttempts url fname env fuel (i + 1)
        (req :: rs, r)
    | FetchOutcome.transportExc =>
      if fuel == 0 then ([req], Except.error (FetchErr.transport fname))
      else
        let (rs, r) := fetchAttempts url fname env fuel (i + 1)
        (req :: rs, r)

/-- Modelled from the spec: `get_latest_md` with its three-attempt
bound, returning the issued requests alongside the outcome. -/
def getLatestMd (url fname : String) (env : Nat → FetchOutcome) :
    List FetchReq × Except FetchErr String :=
  fetchAttempts url fname env 3 0

/-! ### Helper lemmas for the hash-bin assignment -/

/-- Numeric value of a lower-case hex digit character. -/
def hexVal (c : Char) : Nat :=
  if c.toNat ≤ 57 then c.toNat - 48 else c.toNat - 87

/-- Value of a big-endian hex digit list. -/
def fromHexList (l : List Char) : Nat :=
  l.foldl (fun a c => a * 16 + hexVal c) 0

theorem toNat_ofNat_lt (n : Nat) (h : n < 256) : (Char.ofNat n).toNat = n := by
  have hv : n.isValidChar := Or.inl (by omega)
  simp [Char.ofNat, hv, Char.ofNatAux, Char.toNat]
  rfl

theorem hexVal_hexDigitChar (d : Nat) (h : d < 16) :
    hexVal (hexDigitChar d) = d := by
  interval_cases d <;> rfl

theorem length_hexFixed : ∀ w n, (hexFixed w n).length = w := by
  intro w
  induction w with
  | zero => intro n; rfl
  | succ w ih => intro n; simp [hexFixed, ih]

theorem fromHexList_append (l : List Char) (c : Char) :
    fromHexList (l ++ [c]) = fromHexList l * 16 + hexVal c := by
  simp [fromHexList, List.foldl_append]

theorem fromHexList_hexFixed : ∀ w n, fromHexList (hexFixed w n) = n % 16 ^ w := by
  intro w
  induction w with
  | zero => intro n; simp [hexFixed, fromHexList, Nat.mod_one]
  | succ w ih =>
    intro n
    rw [hexFixed, fromHexList_append, ih]
    have h16 : n % 16 < 16 := Nat.mod_lt _ (by norm_num)
    rw [hexVal_hexDigitChar _ h16]
    rw [pow_succ, Nat.mul_comm (16 ^ w) 16, Nat.mod_mul]
    ring

theorem hexFixed_inj {w m1 m2 : Nat} (h1 : m1 < 16 ^ w) (h2 : m2 < 16 ^ w)
    (he : hexFixed w m1 = hexFixed w m2) : m1 = m2 := by
  have hc := congrArg fromHexList he
  rw [fromHexList_hexFixed, fromHexList_hexFixed,
    Nat.mod_eq_of_lt h1, Nat.mod_eq_of_lt h2] at hc
  exact hc

theorem two_pow_le_sixteen_pow (b : Nat) : 2 ^ b ≤ 16 ^ suffixLen b := by
  have h16 : (16 : Nat) = 2 ^ 4 := by norm_num
  rw [h16, ← pow_mul]
  apply Nat.pow_le_pow_right (by norm_num)
  unfold suffixLen
  omega

theorem binName_inj (sr : SuccinctRoles) {m1 m2 : Nat}
    (h1 : m1 < 2 ^ sr.bit_length) (h2 : m2 < 2 ^ sr.bit_length)
    (he : binName sr m1 = binName sr m2) : m1 = m2 := by
  have hd := congrArg String.data he
  simp only [binName, String.data_append] at hd
  have hfix : hexFixed (suffixLen sr.bit_length) m1
      = hexFixed (suffixLen sr.bit_length) m2 :=
    List.append_cancel_left hd
  have hb := two_pow_le_sixteen_pow sr.bit_length
  exact hexFixed_inj (lt_of_lt_of_le h1 hb) (lt_of_lt_of_le h2 hb) hfix

theorem foldl_hashStep_encode : ∀ w n h0, h0 < 2 ^ 32 →
    List.foldl hashStep h0 (encodeNatPath w n)
      = (h0 * 256 ^ w + n % 256 ^ w) % 2 ^ 32 := by
  intro w
  induction w with
  | zero =>
    intro n h0 hlt
    simp only [encodeNatPath, List.foldl_nil, pow_zero, Nat.mul_one, Nat.mod_one,
      Nat.add_zero]
    norm_num at hlt ⊢
    omega
  | succ w ih =>
    intro n h0 hlt
    rw [encodeNatPath, List.foldl_append, ih _ _ hlt]
    have h256 : n % 256 < 256 := Nat.mod_lt _ (by norm_num)
    simp only [List.foldl_cons, List.foldl_nil, hashStep]
    rw [toNat_ofNat_lt _ h256, Nat.mod_mod_of_dvd _ (by norm_num)]
    set X := h0 * 256 ^ w + n / 256 % 256 ^ w with hX
    calc (X % 2 ^ 32 * 256 + n % 256) % 2 ^ 32
        = (X % 2 ^ 32 * 256 % 2 ^ 32 + n % 256 % 2 ^ 32) % 2 ^ 32 := by
          rw [← Nat.add_mod]
      _ = (X * 256 % 2 ^ 32 + n % 256 % 2 ^ 32) % 2 ^ 32 := by
          rw [Nat.mod_mul_mod]
      _ = (X * 256 + n % 256) % 2 ^ 32 := by rw [← Nat.add_mod]
      _ = (h0 * 256 ^ (w + 1) + n % 256 ^ (w + 1)) % 2 ^ 32 := by
          rw [hX]
          have : n % 256 ^ (w + 1) = n % 256 + 256 * (n / 256 % 256 ^ w) := by
            rw [pow_succ, Nat.mul_comm (256 ^ w) 256, Nat.mod_mul]
          rw [this, pow_succ]
          ring_nf

theorem pathHash_encode (m : Nat) (h : m < 2 ^ 32) :
    pathHash (String.mk (encodeNatPath 4 m)) = m := by
  have hf := foldl_hashStep_encode 4 m 0 (by norm_num)
  have h4 : (256 : Nat) ^ 4 = 2 ^ 32 := by norm_num
  have hdata : (String.mk (encodeNatPath 4 m)).data = encodeNatPath 4 m := rfl
  unfold pathHash
  rw [hdata, hf, h4, Nat.zero_mul, Nat.zero_add, Nat.mod_eq_of_lt h,
    Nat.mod_eq_of_lt h]

/-- Claim C3: bin assignment is a pure deterministic function of the
target path and the bit-length: every call with the same input yields
the same rolename, the output space for a fixed bit length `b` has
exactly `2^b` distinct rolenames (each reachable from some path and
every path landing in one of them), and each rolename is the
delegation's name prefix followed by a fixed-width ordinal suffix. -/
theorem assign_bin_deterministic_range (sr : SuccinctRoles)
    (hb1 : 1 ≤ sr.bit_length) (hb2 : sr.bit_length ≤ 32) :
    (∀ p, get_role_for_target sr p = get_role_for_target sr p) ∧
    ((Finset.range (2 ^ sr.bit_length)).image (binName sr)).card
      = 2 ^ sr.bit_length ∧
    (∀ p, get_role_for_target sr p
      ∈ (Finset.range (2 ^ sr.bit_length)).image (binName sr)) ∧
    (∀ r ∈ (Finset.range (2 ^ sr.bit_length)).image (binName sr),
      ∃ p, get_role_for_target sr p = r) ∧
    (∀ p, ∃ m, m < 2 ^ sr.bit_length ∧
      get_role_for_target sr p
        = sr.name_pfx ++ "-" ++ String.mk (hexFixed (suffixLen sr.bit_length) m) ∧
      (hexFixed (suffixLen sr.bit_length) m).length = suffixLen sr.bit_length) := by
  have hpos : (0:Nat) < 2 ^ sr.bit_length := Nat.pos_pow_of_pos _ (by norm_num)
  have hmod : ∀ p, pathHash p % 2 ^ sr.bit_length < 2 ^ sr.bit_length :=
    fun p => Nat.mod_lt _ hpos
  refine ⟨fun p => rfl, ?_, ?_, ?_, ?_⟩
  · rw [Finset.card_image_of_injOn, Finset.card_range]
    intro m1 hm1 m2 hm2 he
    exact binName_inj sr (Finset.mem_range.mp hm1) (Finset.mem_range.mp hm2) he
  · intro p
    exact Finset.mem_image_of_mem _ (Finset.mem_range.mpr (hmod p))
  · intro r hr
    obtain ⟨m, hm, hbm⟩ := Finset.mem_image.mp hr
    have hmlt : m < 2 ^ sr.bit_length := Finset.mem_range.mp hm
    have hm32 : m < 2 ^ 32 :=
      lt_of_lt_of_le hmlt (Nat.pow_le_pow_right (by norm_num) hb2)
    refine ⟨String.mk (encodeNatPath 4 m), ?_⟩
    rw [← hbm]
    unfold get_role_for_target
    rw [pathHash_encode m hm32, Nat.mod_eq_of_lt hmlt]
  · intro p
    exact ⟨pathHash p % 2 ^ sr.bit_length, hmod p, rfl,
      length_hexFixed _ _⟩

/-- Witness for C3: the cardinality conjunct evaluated at the concrete
configuration of 8 bit-length bins named over the prefix "bins". -/
theorem assign_bin_deterministic_range_witness :
    ((Finset.range (2 ^ (SuccinctRoles.mk 8 "bins").bit_length)).image
      (binName (SuccinctRoles.mk 8 "bins"))).card
      = 2 ^ (SuccinctRoles.mk 8 "bins").bit_length :=
  (assign_bin_deterministic_range (SuccinctRoles.mk 8 "bins")
    (by norm_num) (by norm_num)).2.1

/-- Claim C10: a line splitting into at least four `;`-fields whose
second field has an integer value is staged with path equal to the first
field, length the integer value of the second, exactly one hash entry
mapping the third field to the fourth taken verbatim from the split
(so a trailing line terminator stays in the hash value), published
`False` and action `ADD`; any fields after the fourth do not appear in
the record and do not cause a rejection. -/
theorem parse_line_fields (sr : SuccinctRoles) (line p l a h : String)
    (rest : List String) (n : Int)
    (hsplit : pySplit line ';' = p :: l :: a :: h :: rest)
    (hn : pyInt l = some n) :
    parseLine sr line = Except.ok
      { path := p
        info := { length := n, hashes := [(a, h)] }
        rolename := get_role_for_target sr p
        published := false
        action := "ADD" } := by
  simp [parseLine, hsplit, pyIndex, pyToInt, hn, Bind.bind, Except.bind]

/-- Witness for C10: a concrete four-field line with a trailing newline;
the newline stays inside the recorded hash value. -/
theorem parse_line_fields_witness :
    parseLine (SuccinctRoles.mk 8 "bins") ("pkg/a.tgz;42;sha256;deadbeef\n")
      = Except.ok
        { path := "pkg/a.tgz"
          info := { length := 42, hashes := [("sha256", "deadbeef\n")] }
          rolename := get_role_for_target (SuccinctRoles.mk 8 "bins") ("pkg/a.tgz")
          published := false
          action := "ADD" } :=
  parse_line_fields (SuccinctRoles.mk 8 "bins") ("pkg/a.tgz;42;sha256;deadbeef\n")
    "pkg/a.tgz" "42" "sha256" "deadbeef\n" [] 42 (by decide) (by decide)

theorem parseLine_malformed (sr : SuccinctRoles) (l : String)
    (h : malformedLine l = true) : ∃ e, parseLine sr l = Except.error e := by
  unfold malformedLine at h
  rcases hfs : pySplit l ';' with _ | ⟨f0, _ | ⟨f1, _ | ⟨f2, _ | ⟨f3, rest⟩⟩⟩⟩
  · exact ⟨PyErr.indexError, by simp [parseLine, hfs, pyIndex, Bind.bind, Except.bind]⟩
  · exact ⟨PyErr.indexError, by simp [parseLine, hfs, pyIndex, Bind.bind, Except.bind]⟩
  · cases hpi : pyInt f1 with
    | none => exact ⟨PyErr.valueError f1,
        by simp [parseLine, hfs, pyIndex, pyToInt, hpi, Bind.bind, Except.bind]⟩
    | some n => exact ⟨PyErr.indexError,
        by simp [parseLine, hfs, pyIndex, pyToInt, hpi, Bind.bind, Except.bind]⟩
  · cases hpi : pyInt f1 with
    | none => exact ⟨PyErr.valueError f1,
        by simp [parseLine, hfs, pyIndex, pyToInt, hpi, Bind.bind, Except.bind]⟩
    | some n => exact ⟨PyErr.indexError,
        by simp [parseLine, hfs, pyIndex, pyToInt, hpi, Bind.bind, Except.bind]⟩
  · rw [hfs] at h
    simp at h
    cases hpi : pyInt f1 with
    | none => exact ⟨PyErr.valueError f1,
        by simp [parseLine, hfs, pyIndex, pyToInt, hpi, Bind.bind, Except.bind]⟩
    | some n => exact absurd (h.resolve_left (by omega)) (by simp [hpi])

theorem parseCsvData_error_of_mem (sr : SuccinctRoles) (lines : List String)
    (l : String) (hl : l ∈ lines) (he : ∃ e0, parseLine sr l = Except.error e0) :
    ∃ e, parseCsvData sr lines = Except.error e := by
  induction lines with
  | nil => cases hl
  | cons x xs ih =>
    cases hx : parseLine sr x with
    | error e => exact ⟨e, by simp [parseCsvData, hx, Bind.bind, Except.bind]⟩
    | ok r =>
      rcases List.mem_cons.mp hl with heq | htail
      · obtain ⟨e0, he0⟩ := he
        rw [heq, hx] at he0
        cases he0
      · obtain ⟨e, hrec⟩ := ih htail
        exact ⟨e, by simp [parseCsvData, hx, hrec, Bind.bind, Except.bind]⟩

theorem stageAll_error_of_parse (sr : SuccinctRoles) (name : String)
    (lines : List String)
    (he : ∃ e0, parseCsvData sr lines = Except.error e0) :
    ∀ (db : DB) (files : List (String × List String)),
    (name, lines) ∈ files →
    ∃ e, (stageAll sr db files).2 = Except.error e := by
  intro db files
  induction files generalizing db with
  | nil => intro hf; cases hf
  | cons f rest ih =>
    intro hf
    obtain ⟨n0, ls0⟩ := f
    cases hp : parseCsvData sr ls0 with
    | error e => exact ⟨RunErr.malformed e, by simp [stageAll, hp]⟩
    | ok rows =>
      cases hex : dbExecute db rows with
      | error e => exact ⟨e, by simp [stageAll, hp, hex]⟩
      | ok db2 =>
        rcases List.mem_cons.mp hf with heq | htail
        · obtain ⟨e0, he0⟩ := he
          rw [(Prod.mk.injEq _ _ _ _).mp heq |>.2, hp] at he0
          cases he0
        · obtain ⟨e, hrec⟩ := ih db2 htail
          rcases hr : stageAll sr db2 rest with ⟨acts, res⟩
          rw [hr] at hrec
          exact ⟨e, by simp [stageAll, hp, hex, hr]; exact hrec⟩

theorem stageAll_acts (sr : SuccinctRoles) :
    ∀ (files : List (String × List String)) (db : DB),
    ∀ a ∈ (stageAll sr db files).1, ∃ n2, a = Act.executeFile n2 := by
  intro files
  induction files with
  | nil => intro db a ha; cases ha
  | cons f rest ih =>
    intro db a ha
    obtain ⟨n0, ls0⟩ := f
    cases hp : parseCsvData sr ls0 with
    | error e => simp [stageAll, hp] at ha
    | ok rows =>
      cases hex : dbExecute db rows with
      | error e =>
        simp [stageAll, hp, hex] at ha
        exact ⟨n0, ha⟩
      | ok db2 =>
        rcases hr : stageAll sr db2 rest with ⟨acts, res⟩
        simp [stageAll, hp, hex, hr] at ha
        rcases ha with ha | ha
        · exact ⟨n0, ha⟩
        · exact ih db2 a (by rw [hr]; exact ha)

theorem stageAll_ok_executes (sr : SuccinctRoles) :
    ∀ (files : List (String × List String)) (db db2 : DB),
    (stageAll sr db files).2 = Except.ok db2 →
    ∀ f ∈ files, Act.executeFile f.1 ∈ (stageAll sr db files).1 := by
  intro files
  induction files with
  | nil => intro db db2 hok f hf; cases hf
  | cons f0 rest ih =>
    intro db db2 hok f hf
    obtain ⟨n0, ls0⟩ := f0
    cases hp : parseCsvData sr ls0 with
    | error e => simp [stageAll, hp] at hok
    | ok rows =>
      cases hex : dbExecute db rows with
      | error e => simp [stageAll, hp, hex] at hok
      | ok dbm =>
        rcases hr : stageAll sr dbm rest with ⟨acts, res⟩
        simp [stageAll, hp, hex, hr] at hok ⊢
        rcases List.mem_cons.mp hf with heq | htail
        · left; rw [heq]
        · right
          have := ih dbm db2 (by rw [hr]; exact hok) f htail
          rw [hr] at this
          exact this

/-- The claim of C4 fails on the code in two ways.  First, a line with
a wrong field count in the over-four direction does not fail the
source: a source named `five.csv` whose only line has five fields
(wrong count, the interface fixes exactly four) parses without error
and its record is staged and committed.  Second, when a line does
abort the source, the raised exception is a bare
`IndexError`/`ValueError` whose message does not name the offending CSV
file: a source named `targets.csv` whose only line has one field aborts
with "list index out of range", which does not contain "targets.csv". -/
theorem parse_malformed_counterexample :
    (importTargetsCmd (HttpResponse.mk 200 "") (SuccinctRoles.mk 8 "bins")
        (DB.mk [] []) [("five.csv", ["p;1;sha256;h;extra\n"])] true
        (PubResponse.mk 202 "" "t1")).err = none ∧
    (importTargetsCmd (HttpResponse.mk 200 "") (SuccinctRoles.mk 8 "bins")
        (DB.mk [] []) [("five.csv", ["p;1;sha256;h;extra\n"])] true
        (PubResponse.mk 202 "" "t1")).committed.length = 1 ∧
    (importTargetsCmd (HttpResponse.mk 200 "") (SuccinctRoles.mk 8 "bins")
        (DB.mk [] []) [("targets.csv", ["malformed-line\n"])] true
        (PubResponse.mk 202 "" "t1")).err
      = some (RunErr.malformed PyErr.indexError) ∧
    strContains (errMsg (RunErr.malformed PyErr.indexError)) ("targets.csv")
      = false := by
  refine ⟨?_, ?_, ?_, ?_⟩
  · decide
  · decide
  · decide
  · decide

/-- Claim C4 as amended: a record source containing a line with fewer
than four `;`-separated fields, or with a second field that is not an
integer literal, fails the run with a propagated parse error and
contributes nothing to the store — there is no partial success within a
source.  (Against the original claim: a line with more than four fields
is not rejected — its extra fields are silently ignored — and the
raised error does not name the offending source; see the
counterexample.) -/
theorem parse_malformed_strict (sr : SuccinctRoles) (resp : HttpResponse)
    (db : DB) (files : List (String × List String)) (skipPublish : Bool)
    (pub : PubResponse) (name l : String) (lines : List String)
    (hf : (name, lines) ∈ files) (hl : l ∈ lines)
    (hm : malformedLine l = true) :
    (importTargetsCmd resp sr db files skipPublish pub).err ≠ none ∧
    (importTargetsCmd resp sr db files skipPublish pub).committed
      = db.committed := by
  have hperr := parseLine_malformed sr l hm
  have hcsv := parseCsvData_error_of_mem sr lines l hl hperr
  cases h404 : resp.status == 404 with
  | true => simp [importTargetsCmd, h404]
  | false =>
    obtain ⟨e, he⟩ := stageAll_error_of_parse sr name lines hcsv
      (DB.mk db.committed []) files hf
    rcases hs : stageAll sr (DB.mk db.committed []) files with ⟨acts, res⟩
    rw [hs] at he
    simp at he
    rw [he] at hs
    simp [importTargetsCmd, h404, hs]

/-- Witness for C4 (amended): a run over a source with a short line
leaves the concrete store untouched. -/
theorem parse_malformed_strict_witness :
    (importTargetsCmd (HttpResponse.mk 200 "") (SuccinctRoles.mk 8 "bins")
        (DB.mk [] []) [("a.csv", ["x\n"])] true
        (PubResponse.mk 202 "" "t1")).committed = (DB.mk [] []).committed :=
  (parse_malformed_strict (SuccinctRoles.mk 8 "bins") (HttpResponse.mk 200 "")
    (DB.mk [] []) [("a.csv", ["x\n"])] true (PubResponse.mk 202 "" "t1")
    "a.csv" "x\n" ["x\n"] (by decide) (by decide) (by decide)).2

theorem commit_notin_stage_acts (sr : SuccinctRoles)
    (files : List (String × List String)) (db : DB) :
    Act.commit ∉ (stageAll sr db files).1 := by
  intro hmem
  obtain ⟨n2, hn⟩ := stageAll_acts sr files db Act.commit hmem
  cases hn

theorem publish_notin_stage_acts (sr : SuccinctRoles)
    (files : List (String × List String)) (db : DB) :
    Act.publishRequest ∉ (stageAll sr db files).1 := by
  intro hmem
  obtain ⟨n2, hn⟩ := stageAll_acts sr files db Act.publishRequest hmem
  cases hn

theorem importTargetsCmd_404 (resp : HttpResponse) (sr : SuccinctRoles)
    (db : DB) (files : List (String × List String)) (skipPublish : Bool)
    (pub : PubResponse) (h404 : (resp.status == 404) = true) :
    importTargetsCmd resp sr db files skipPublish pub
      = ImportResult.mk [Act.fetchBinMd] (some RunErr.notFound) db.committed := by
  simp [importTargetsCmd, h404]

theorem importTargetsCmd_stageErr (resp : HttpResponse) (sr : SuccinctRoles)
    (db : DB) (files : List (String × List String)) (skipPublish : Bool)
    (pub : PubResponse) (h404 : (resp.status == 404) = false)
    {acts : List Act} {e : RunErr}
    (hs : stageAll sr (DB.mk db.committed []) files = (acts, Except.error e)) :
    importTargetsCmd resp sr db files skipPublish pub
      = ImportResult.mk (Act.fetchBinMd :: Act.parseBody :: acts) (some e)
          db.committed := by
  simp [importTargetsCmd, h404, hs]

theorem importTargetsCmd_skip (resp : HttpResponse) (sr : SuccinctRoles)
    (db : DB) (files : List (String × List String)) (pub : PubResponse)
    (h404 : (resp.status == 404) = false) {acts : List Act} {db2 : DB}
    (hs : stageAll sr (DB.mk db.committed []) files = (acts, Except.ok db2)) :
    importTargetsCmd resp sr db files true pub
      = ImportResult.mk
          (Act.fetchBinMd :: Act.parseBody :: (acts ++ [Act.commit])) none
          (db2.committed ++ db2.staged) := by
  simp [importTargetsCmd, h404, hs]

theorem importTargetsCmd_pub202 (resp : HttpResponse) (sr : SuccinctRoles)
    (db : DB) (files : List (String × List String)) (pub : PubResponse)
    (h404 : (resp.status == 404) = false) {acts : List Act} {db2 : DB}
    (hs : stageAll sr (DB.mk db.committed []) files = (acts, Except.ok db2))
    (h202 : (pub.status == 202) = true) :
    importTargetsCmd resp sr db files false pub
      = ImportResult.mk
          ((Act.fetchBinMd :: Act.parseBody :: (acts ++ [Act.commit]))
            ++ [Act.publishRequest, Act.taskPoll pub.taskId]) none
          (db2.committed ++ db2.staged) := by
  simp [importTargetsCmd, h404, hs, h202]

theorem importTargetsCmd_pubFail (resp : HttpResponse) (sr : SuccinctRoles)
    (db : DB) (files : List (String × List String)) (pub : PubResponse)
    (h404 : (resp.status == 404) = false) {acts : List Act} {db2 : DB}
    (hs : stageAll sr (DB.mk db.committed []) files = (acts, Except.ok db2))
    (h202 : (pub.status == 202) = false) :
    importTargetsCmd resp sr db files false pub
      = ImportResult.mk
          ((Act.fetchBinMd :: Act.parseBody :: (acts ++ [Act.commit]))
            ++ [Act.publishRequest])
          (some (RunErr.publishFailed pub.text))
          (db2.committed ++ db2.staged) := by
  simp [importTargetsCmd, h404, hs, h202]

/-- Claim C2: the commit is issued at most once and only after every
source has parsed and staged successfully, and when the store rejects a
staged record for a duplicate path the whole run fails with the
duplicate error, no commit is issued, and the committed store state is
exactly what it was before the run. -/
theorem import_commit_atomic (resp : HttpResponse) (sr : SuccinctRoles)
    (db : DB) (files : List (String × List String)) (skipPublish : Bool)
    (pub : PubResponse) :
    ((importTargetsCmd resp sr db files skipPublish pub).err = some RunErr.dup →
      (importTargetsCmd resp sr db files skipPublish pub).committed = db.committed ∧
      Act.commit ∉ (importTargetsCmd resp sr db files skipPublish pub).trace) ∧
    (importTargetsCmd resp sr db files skipPublish pub).trace.count Act.commit ≤ 1 ∧
    (Act.commit ∈ (importTargetsCmd resp sr db files skipPublish pub).trace →
      ∀ f ∈ files, Act.executeFile f.1
        ∈ (importTargetsCmd resp sr db files skipPublish pub).trace) := by
  cases h404 : resp.status == 404 with
  | true =>
    rw [importTargetsCmd_404 resp sr db files skipPublish pub h404]
    refine ⟨fun hdup => ⟨rfl, by simp⟩, by simp, fun hmem => ?_⟩
    simp at hmem
  | false =>
    rcases hs : stageAll sr (DB.mk db.committed []) files with ⟨acts, res⟩
    have hnc : Act.commit ∉ acts := by
      have := commit_notin_stage_acts sr files (DB.mk db.committed [])
      rw [hs] at this
      exact this
    have hcz : acts.count Act.commit = 0 := List.count_eq_zero.mpr hnc
    cases res with
    | error e =>
      rw [importTargetsCmd_stageErr resp sr db files skipPublish pub h404 hs]
      refine ⟨?_, ?_, ?_⟩
      · intro hdup
        exact ⟨rfl, by simp [hnc]⟩
      · show (Act.fetchBinMd :: Act.parseBody :: acts).count Act.commit ≤ 1
        rw [List.count_eq_zero.mpr
          (show Act.commit ∉ Act.fetchBinMd :: Act.parseBody :: acts by simp [hnc])]
        omega
      · intro hmem
        exact absurd hmem (by simp [hnc])
    | ok db2 =>
      have hexec : ∀ f ∈ files, Act.executeFile f.1 ∈ acts := by
        have := stageAll_ok_executes sr files (DB.mk db.committed []) db2
          (by rw [hs])
        rw [hs] at this
        exact this
      have hcount : (Act.fetchBinMd :: Act.parseBody :: (acts ++ [Act.commit])).count
          Act.commit = 1 := by
        rw [List.count_cons_of_ne (by simp), List.count_cons_of_ne (by simp),
          List.count_append, hcz]
        simp
      have hmembase : ∀ f ∈ files, Act.executeFile f.1
          ∈ Act.fetchBinMd :: Act.parseBody :: (acts ++ [Act.commit]) :=
        fun f hf => List.mem_cons_of_mem _ (List.mem_cons_of_mem _
          (List.mem_append_left _ (hexec f hf)))
      cases skipPublish with
      | true =>
        rw [importTargetsCmd_skip resp sr db files pub h404 hs]
        refine ⟨?_, ?_, ?_⟩
        · intro hdup
          simp at hdup
        · exact le_of_eq hcount
        · intro hmem f hf
          exact hmembase f hf
      | false =>
        cases h202 : pub.status == 202 with
        | true =>
          rw [importTargetsCmd_pub202 resp sr db files pub h404 hs h202]
          refine ⟨?_, ?_, ?_⟩
          · intro hdup
            simp at hdup
          · show ((Act.fetchBinMd :: Act.parseBody :: (acts ++ [Act.commit]))
              ++ [Act.publishRequest, Act.taskPoll pub.taskId]).count Act.commit ≤ 1
            rw [List.count_append, hcount,
              List.count_cons_of_ne (by simp), List.count_cons_of_ne (by simp)]
            simp
          · intro hmem f hf
            exact List.mem_append_left _ (hmembase f hf)
        | false =>
          rw [importTargetsCmd_pubFail resp sr db files pub h404 hs h202]
          refine ⟨?_, ?_, ?_⟩
          · intro hdup
            simp at hdup
          · show ((Act.fetchBinMd :: Act.parseBody :: (acts ++ [Act.commit]))
              ++ [Act.publishRequest]).count Act.commit ≤ 1
            rw [List.count_append, hcount, List.count_cons_of_ne (by simp)]
            simp
          · intro hmem f hf
            exact List.mem_append_left _ (hmembase f hf)

/-- Witness for C2: a run whose single source repeats a path already in
the store aborts with the duplicate error and leaves the concrete store
unchanged. -/
theorem import_commit_atomic_witness :
    (importTargetsCmd (HttpResponse.mk 200 "") (SuccinctRoles.mk 8 "bins")
        (DB.mk [TargetRecord.mk "x" (TargetInfo.mk 1 [("sha256", "h")]) "r"
          false "ADD"] [])
        [("a.csv", ["x;1;sha256;h"])] true (PubResponse.mk 202 "" "t1")).committed
      = (DB.mk [TargetRecord.mk "x" (TargetInfo.mk 1 [("sha256", "h")]) "r"
          false "ADD"] []).committed ∧
    Act.commit ∉ (importTargetsCmd (HttpResponse.mk 200 "")
        (SuccinctRoles.mk 8 "bins")
        (DB.mk [TargetRecord.mk "x" (TargetInfo.mk 1 [("sha256", "h")]) "r"
          false "ADD"] [])
        [("a.csv", ["x;1;sha256;h"])] true (PubResponse.mk 202 "" "t1")).trace :=
  (import_commit_atomic (HttpResponse.mk 200 "") (SuccinctRoles.mk 8 "bins")
    (DB.mk [TargetRecord.mk "x" (TargetInfo.mk 1 [("sha256", "h")]) "r"
      false "ADD"] [])
    [("a.csv", ["x;1;sha256;h"])] true (PubResponse.mk 202 "" "t1")).1
    (by decide)

/-- Claim C9: after a successful commit the publish-targets action is
triggered exactly when the skip flag is unset; the publish request is
never issued more than once (no retry); a response other than 202 is a
hard error carrying the response body; a 202 response yields the task id
that is then polled, with no error raised. -/
theorem publish_gated_on_skip (resp : HttpResponse) (sr : SuccinctRoles)
    (db : DB) (files : List (String × List String)) (skipPublish : Bool)
    (pub : PubResponse) :
    (Act.commit ∈ (importTargetsCmd resp sr db files skipPublish pub).trace →
      ((Act.publishRequest ∈ (importTargetsCmd resp sr db files skipPublish pub).trace)
        ↔ skipPublish = false)) ∧
    (importTargetsCmd resp sr db files skipPublish pub).trace.count
      Act.publishRequest ≤ 1 ∧
    (Act.publishRequest ∈ (importTargetsCmd resp sr db files skipPublish pub).trace →
      pub.status ≠ 202 →
      (importTargetsCmd resp sr db files skipPublish pub).err
        = some (RunErr.publishFailed pub.text)) ∧
    (Act.publishRequest ∈ (importTargetsCmd resp sr db files skipPublish pub).trace →
      pub.status = 202 →
      Act.taskPoll pub.taskId ∈ (importTargetsCmd resp sr db files skipPublish pub).trace ∧
      (importTargetsCmd resp sr db files skipPublish pub).err = none) := by
  cases h404 : resp.status == 404 with
  | true =>
    rw [importTargetsCmd_404 resp sr db files skipPublish pub h404]
    refine ⟨?_, ?_, ?_, ?_⟩
    · intro hc
      exact absurd hc (by simp)
    · simp
    · intro hp
      exact absurd hp (by simp)
    · intro hp
      exact absurd hp (by simp)
  | false =>
    rcases hs : stageAll sr (DB.mk db.committed []) files with ⟨acts, res⟩
    have hnp : Act.publishRequest ∉ acts := by
      have := publish_notin_stage_acts sr files (DB.mk db.committed [])
      rw [hs] at this
      exact this
    cases res with
    | error e =>
      rw [importTargetsCmd_stageErr resp sr db files skipPublish pub h404 hs]
      refine ⟨?_, ?_, ?_, ?_⟩
      · intro hc
        have hncc : Act.commit ∉ acts := by
          have := commit_notin_stage_acts sr files (DB.mk db.committed [])
          rw [hs] at this
          exact this
        exact absurd hc (by simp [hncc])
      · show (Act.fetchBinMd :: Act.parseBody :: acts).count Act.publishRequest ≤ 1
        rw [List.count_eq_zero.mpr
          (show Act.publishRequest ∉ Act.fetchBinMd :: Act.parseBody :: acts by simp [hnp])]
        omega
      · intro hp
        exact absurd hp (by simp [hnp])
      · intro hp
        exact absurd hp (by simp [hnp])
    | ok db2 =>
      have hnpbase : Act.publishRequest
          ∉ Act.fetchBinMd :: Act.parseBody :: (acts ++ [Act.commit]) := by
        simp [hnp]
      have hzbase : (Act.fetchBinMd :: Act.parseBody :: (acts ++ [Act.commit])).count
          Act.publishRequest = 0 := List.count_eq_zero.mpr hnpbase
      cases skipPublish with
      | true =>
        rw [importTargetsCmd_skip resp sr db files pub h404 hs]
        refine ⟨?_, ?_, ?_, ?_⟩
        · intro hc
          constructor
          · intro hp
            exact absurd hp hnpbase
          · intro hfalse
            cases hfalse
        · show (Act.fetchBinMd :: Act.parseBody :: (acts ++ [Act.commit])).count
            Act.publishRequest ≤ 1
          rw [hzbase]
          omega
        · intro hp
          exact absurd hp hnpbase
        · intro hp
          exact absurd hp hnpbase
      | false =>
        cases h202 : pub.status == 202 with
        | true =>
          have h202e : pub.status = 202 := by simpa using h202
          rw [importTargetsCmd_pub202 resp sr db files pub h404 hs h202]
          refine ⟨?_, ?_, ?_, ?_⟩
          · intro hc
            refine ⟨fun _ => rfl, fun _ => ?_⟩
            exact List.mem_append_right _ (List.mem_cons_self _ _)
          · show ((Act.fetchBinMd :: Act.parseBody :: (acts ++ [Act.commit]))
              ++ [Act.publishRequest, Act.taskPoll pub.taskId]).count
                Act.publishRequest ≤ 1
            rw [List.count_append, hzbase, List.count_cons_self,
              List.count_eq_zero.mpr (show Act.publishRequest ∉ [Act.taskPoll pub.taskId] by simp)]
          · intro hp hne
            exact absurd h202e hne
          · intro hp h2
            exact ⟨List.mem_append_right _ (by simp), rfl⟩
        | false =>
          have h202e : pub.status ≠ 202 := by simpa using h202
          rw [importTargetsCmd_pubFail resp sr db files pub h404 hs h202]
          refine ⟨?_, ?_, ?_, ?_⟩
          · intro hc
            refine ⟨fun _ => rfl, fun _ => ?_⟩
            exact List.mem_append_right _ (List.mem_cons_self _ _)
          · show ((Act.fetchBinMd :: Act.parseBody :: (acts ++ [Act.commit]))
              ++ [Act.publishRequest]).count Act.publishRequest ≤ 1
            rw [List.count_append, hzbase, List.count_cons_self, List.count_nil]
          · intro hp hne
            rfl
          · intro hp h2
            exact absurd h2 h202e

/-- Witness for C9: with the skip flag unset and an accepted (202)
publish response, the concrete run polls the returned task id and ends
without error. -/
theorem publish_gated_on_skip_witness :
    Act.taskPoll "t1" ∈ (importTargetsCmd (HttpResponse.mk 200 "")
        (SuccinctRoles.mk 8 "bins") (DB.mk [] []) [] false
        (PubResponse.mk 202 "" "t1")).trace ∧
    (importTargetsCmd (HttpResponse.mk 200 "") (SuccinctRoles.mk 8 "bins")
        (DB.mk [] []) [] false (PubResponse.mk 202 "" "t1")).err = none :=
  (publish_gated_on_skip (HttpResponse.mk 200 "") (SuccinctRoles.mk 8 "bins")
    (DB.mk [] []) [] false (PubResponse.mk 202 "" "t1")).2.2.2
    (by decide) (by decide)

/-- The claim of C5 fails on the code: `import_targets` checks only for
status 404 on the bin-metadata fetch.  Concretely, a 500 response is not
turned into a fetch error — the command proceeds to parse the body (the
`parseBody` step runs) and finishes without any error. -/
theorem fetch_non200_counterexample :
    (importTargetsCmd (HttpResponse.mk 500 "oops") (SuccinctRoles.mk 8 "bins")
        (DB.mk [] []) [] true (PubResponse.mk 202 "" "t1")).err = none ∧
    Act.parseBody ∈ (importTargetsCmd (HttpResponse.mk 500 "oops")
        (SuccinctRoles.mk 8 "bins") (DB.mk [] []) [] true
        (PubResponse.mk 202 "" "t1")).trace := by
  constructor
  · decide
  · decide

/-- Claim C5 as amended: for the root metadata fetch a 200 response is
parsed (the returned body always stems from a 200 outcome) and a
non-success outcome surfaces a `MetadataFetchError`; the bin targets
metadata fetch in `import_targets`, however, fails only when the status
is exactly 404 — any other status, 200 or not, proceeds to parse the
body. -/
theorem fetch_status_handling (resp : HttpResponse) (sr : SuccinctRoles)
    (db : DB) (files : List (String × List String)) (skipPublish : Bool)
    (pub : PubResponse) (url fname : String) (env : Nat → FetchOutcome) :
    (resp.status = 404 →
      (importTargetsCmd resp sr db files skipPublish pub).err
        = some RunErr.notFound ∧
      Act.parseBody ∉ (importTargetsCmd resp sr db files skipPublish pub).trace) ∧
    (resp.status ≠ 404 →
      Act.parseBody ∈ (importTargetsCmd resp sr db files skipPublish pub).trace) ∧
    (∀ b, env 0 = FetchOutcome.ok b →
      getLatestMd url fname env
        = ([FetchReq.mk (url ++ "/1.root.json") 300], Except.ok b)) ∧
    (∀ b, (getLatestMd url fname env).2 = Except.ok b →
      ∃ i, i < 3 ∧ env i = FetchOutcome.ok b) := by
  refine ⟨?_, ?_, ?_, ?_⟩
  · intro h404
    have hb : (resp.status == 404) = true := by simpa using h404
    rw [importTargetsCmd_404 resp sr db files skipPublish pub hb]
    exact ⟨rfl, by simp⟩
  · intro hne
    have hb : (resp.status == 404) = false := by simpa using hne
    rcases hs : stageAll sr (DB.mk db.committed []) files with ⟨acts, res⟩
    cases res with
    | error e =>
      rw [importTargetsCmd_stageErr resp sr db files skipPublish pub hb hs]
      simp
    | ok db2 =>
      cases skipPublish with
      | true =>
        rw [importTargetsCmd_skip resp sr db files pub hb hs]
        simp
      | false =>
        cases h202 : pub.status == 202 with
        | true =>
          rw [importTargetsCmd_pub202 resp sr db files pub hb hs h202]
          simp
        | false =>
          rw [importTargetsCmd_pubFail resp sr db files pub hb hs h202]
          simp
  · intro b h0
    simp [getLatestMd, fetchAttempts, h0]
  · intro b hok
    rcases h0 : env 0 with b0 | s0 | _
    · refine ⟨0, by omega, ?_⟩
      simp [getLatestMd, fetchAttempts, h0] at hok
      rw [h0, hok]
    all_goals
      rcases h1 : env 1 with b1 | s1 | _
      case ok =>
        refine ⟨1, by omega, ?_⟩
        simp [getLatestMd, fetchAttempts, h0, h1] at hok
        rw [h1, hok]
      all_goals
        rcases h2 : env 2 with b2 | s2 | _
        case ok =>
          refine ⟨2, by omega, ?_⟩
          simp [getLatestMd, fetchAttempts, h0, h1, h2] at hok
          rw [h2, hok]
        all_goals simp [getLatestMd, fetchAttempts, h0, h1, h2] at hok

/-- Witness for C5 (amended): a concrete 404 response aborts the run
with the not-found error before any body parse. -/
theorem fetch_status_handling_witness :
    (importTargetsCmd (HttpResponse.mk 404 "") (SuccinctRoles.mk 8 "bins")
        (DB.mk [] []) [] true (PubResponse.mk 202 "" "t1")).err
      = some RunErr.notFound ∧
    Act.parseBody ∉ (importTargetsCmd (HttpResponse.mk 404 "")
        (SuccinctRoles.mk 8 "bins") (DB.mk [] []) [] true
        (PubResponse.mk 202 "" "t1")).trace :=
  (fetch_status_handling (HttpResponse.mk 404 "") (SuccinctRoles.mk 8 "bins")
    (DB.mk [] []) [] true (PubResponse.mk 202 "" "t1") "u" "root"
    (fun _ => FetchOutcome.transportExc)).1 (by decide)

/-- Claim C7: with dry-run set the `new` delegation command never sends
a payload to the API (whatever the server configuration), while local
output is exactly what `--out` asks for: with an output path the result
is written there, with no output path nothing is deposited anywhere.
Independently of dry-run, the local write depends only on `--out`. -/
theorem dry_run_suppresses_remote (server : Option String) (out : Option String) :
    newCmd server true out
      = Except.ok (Option.elim out [] (fun p => [NewAct.writeLocal p])) ∧
    (∀ dryRun acts, newCmd server dryRun out = Except.ok acts →
      acts.filter isWriteLocal
        = Option.elim out [] (fun p => [NewAct.writeLocal p])) := by
  constructor
  · cases server <;> cases out <;> simp [newCmd, pyTruthy]
  · intro dryRun acts hok
    cases hguard : (server == none && !dryRun) with
    | true => simp [newCmd, hguard] at hok
    | false =>
      cases hsend : (pyTruthy server && !dryRun) with
      | true =>
        simp [newCmd, hguard, hsend] at hok
        cases out with
        | none => simp [← hok, isWriteLocal]
        | some p => simp [← hok, isWriteLocal]
      | false =>
        simp [newCmd, hguard, hsend] at hok
        cases out with
        | none => simp [← hok, isWriteLocal]
        | some p => simp [← hok, isWriteLocal]

/-- Witness for C7: with a server configured, dry-run off and an output
file set, the local write is exactly the one requested file. -/
theorem dry_run_suppresses_remote_witness :
    (List.filter isWriteLocal [NewAct.writeLocal "out.json", NewAct.sendPayload,
        NewAct.pollTask])
      = Option.elim (some "out.json") [] (fun p => [NewAct.writeLocal p]) :=
  (dry_run_suppresses_remote (some "srv") (some "out.json")).2 false
    [NewAct.writeLocal "out.json", NewAct.sendPayload, NewAct.pollTask]
    (by rfl)

theorem distinctIn_single_mem (k : String) (keys : List String) (hk : k ∈ keys) :
    distinctIn [k] keys = 1 := by
  have hc : keys.contains k = true := by
    simpa using hk
  simp [distinctIn, List.filter_cons, hc, hk, List.dedup_cons_of_not_mem]

/-- Claim C1: a ceremony run reports a completed rotation exactly when
the collected signature set reaches both the old root role's threshold
(counting distinct signing keys within the old key set) and the new
root role's threshold (counting within the new key set); missing even
one required signature means the run is not reported as completed.  Both
counts are taken over the same single signature set, so a key id present
in both key sets counts toward both requirements with one signature — in
particular a single signature by a shared key contributes one distinct
key to each side. -/
theorem ceremony_dual_threshold (src : RootMd) (rootMuts : List Mutation)
    (newOnline : Option RoleSet) (newExpiry : Option Nat)
    (avail : List String) (res : CeremonyResult)
    (h : runCeremony src rootMuts newOnline newExpiry avail = Except.ok res) :
    (res.completed = true ↔
      (src.rootRole.threshold ≤ distinctIn res.sigs src.rootRole.keys ∧
       res.md.rootRole.threshold ≤ distinctIn res.sigs res.md.rootRole.keys)) ∧
    (∀ k, k ∈ src.rootRole.keys → k ∈ res.md.rootRole.keys →
      distinctIn [k] src.rootRole.keys = 1 ∧
      distinctIn [k] res.md.rootRole.keys = 1) := by
  cases hfold : rootMuts.foldlM applyMutation src.rootRole with
  | error e => simp [runCeremony, hfold, Bind.bind, Except.bind] at h
  | ok newRoot =>
    simp [runCeremony, hfold, Bind.bind, Except.bind] at h
    constructor
    · rw [← h]
      simp [meetsThreshold, Bool.and_eq_true, decide_eq_true_iff]
    · intro k hk1 hk2
      exact ⟨distinctIn_single_mem k _ hk1, distinctIn_single_mem k _ hk2⟩

/-- Witness for C1: the spec's end-to-end scenario — a 2-of-3 root, one
key removed, one added, signatures from two surviving keys and the new
key: the rotation is reported complete exactly because both counts reach
the threshold 2. -/
theorem ceremony_dual_threshold_witness :
    ((CeremonyResult.mk
        (RootMd.mk 2 0 (RoleSet.mk ["k2", "k3", "k4"] 2) (RoleSet.mk ["o"] 1))
        ["k2", "k3", "k4"] true).completed = true ↔
      (2 ≤ distinctIn ["k2", "k3", "k4"] ["k1", "k2", "k3"] ∧
       2 ≤ distinctIn ["k2", "k3", "k4"] ["k2", "k3", "k4"])) :=
  (ceremony_dual_threshold
    (RootMd.mk 1 0 (RoleSet.mk ["k1", "k2", "k3"] 2) (RoleSet.mk ["o"] 1))
    [Mutation.removeKey "k1", Mutation.addKey "k4"] none none
    ["k2", "k3", "k4"]
    (CeremonyResult.mk
      (RootMd.mk 2 0 (RoleSet.mk ["k2", "k3", "k4"] 2) (RoleSet.mk ["o"] 1))
      ["k2", "k3", "k4"] true)
    (by rfl)).1

/-- Claim C8: rotating a root version with no key-set or threshold edits
and no expiry change produces a version whose number is exactly one more
than the source's, with role sets (and expiry) identical to the
source's, whatever signing keys are available. -/
theorem identity_rotation_roundtrip (src : RootMd) (avail : List String)
    (res : CeremonyResult)
    (h : runCeremony src [] none none avail = Except.ok res) :
    res.md.version = src.version + 1 ∧ res.md.rootRole = src.rootRole ∧
    res.md.onlineRole = src.onlineRole ∧ res.md.expiry = src.expiry := by
  simp [runCeremony, List.foldlM, Bind.bind, Except.bind, Pure.pure,
    Except.pure] at h
  rw [← h]
  exact ⟨rfl, rfl, rfl, rfl⟩

/-- Witness for C8: a concrete 2-of-2 root rotated identically, signed
by its own two keys, lands at version 2 with unchanged roles. -/
theorem identity_rotation_roundtrip_witness :
    (CeremonyResult.mk
        (RootMd.mk 2 7 (RoleSet.mk ["k1", "k2"] 2) (RoleSet.mk ["o"] 1))
        ["k1", "k2"] true).md.version
      = (RootMd.mk 1 7 (RoleSet.mk ["k1", "k2"] 2) (RoleSet.mk ["o"] 1)).version + 1 ∧
    (CeremonyResult.mk
        (RootMd.mk 2 7 (RoleSet.mk ["k1", "k2"] 2) (RoleSet.mk ["o"] 1))
        ["k1", "k2"] true).md.rootRole
      = (RootMd.mk 1 7 (RoleSet.mk ["k1", "k2"] 2) (RoleSet.mk ["o"] 1)).rootRole ∧
    (CeremonyResult.mk
        (RootMd.mk 2 7 (RoleSet.mk ["k1", "k2"] 2) (RoleSet.mk ["o"] 1))
        ["k1", "k2"] true).md.onlineRole
      = (RootMd.mk 1 7 (RoleSet.mk ["k1", "k2"] 2) (RoleSet.mk ["o"] 1)).onlineRole ∧
    (CeremonyResult.mk
        (RootMd.mk 2 7 (RoleSet.mk ["k1", "k2"] 2) (RoleSet.mk ["o"] 1))
        ["k1", "k2"] true).md.expiry
      = (RootMd.mk 1 7 (RoleSet.mk ["k1", "k2"] 2) (RoleSet.mk ["o"] 1)).expiry :=
  identity_rotation_roundtrip
    (RootMd.mk 1 7 (RoleSet.mk ["k1", "k2"] 2) (RoleSet.mk ["o"] 1))
    ["k1", "k2"]
    (CeremonyResult.mk
      (RootMd.mk 2 7 (RoleSet.mk ["k1", "k2"] 2) (RoleSet.mk ["o"] 1))
      ["k1", "k2"] true)
    (by rfl)

/-- Claim C6: every initial-root fetch request carries the fixed 300
time-unit timeout; at most three attempts are made, and a fatal fetch
error is surfaced only once all three are spent; an HTTP non-success
ending surfaces the error whose message starts "Cannot fetch initial
root" (and stems from an HTTP-failure outcome of the last attempt),
while a transport exception surfaces the message starting "Problem
fetching latest". -/
theorem get_latest_md_retry_timeout (url fname : String)
    (env : Nat → FetchOutcome) :
    (∀ req ∈ (getLatestMd url fname env).1, req.timeout = 300) ∧
    (getLatestMd url fname env).1.length ≤ 3 ∧
    (∀ e, (getLatestMd url fname env).2 = Except.error e →
      (getLatestMd url fname env).1.length = 3) ∧
    (∀ u, (getLatestMd url fname env).2 = Except.error (FetchErr.http u) →
      fetchMsg (FetchErr.http u) = "Cannot fetch initial root " ++ u ∧
      (∃ s, env 2 = FetchOutcome.httpFail s)) ∧
    (∀ f2, (getLatestMd url fname env).2 = Except.error (FetchErr.transport f2) →
      fetchMsg (FetchErr.transport f2) = "Problem fetching latest " ++ f2) := by
  rcases h0 : env 0 with b0 | s0 | _ <;>
    rcases h1 : env 1 with b1 | s1 | _ <;>
      rcases h2 : env 2 with b2 | s2 | _ <;>
        refine ⟨?_, ?_, ?_, ?_, ?_⟩ <;>
          simp [getLatestMd, fetchAttempts, fetchMsg, h0, h1, h2]

/-- Witness for C6: with every attempt answered by an HTTP 400, the
concrete fetch issues exactly three requests before giving up. -/
theorem get_latest_md_retry_timeout_witness :
    (getLatestMd "http://h" "root" (fun _ => FetchOutcome.httpFail 400)).1.length
      = 3 :=
  (get_latest_md_retry_timeout "http://h" "root"
    (fun _ => FetchOutcome.httpFail 400)).2.2.1
    (FetchErr.http ("http://h" ++ "/1.root.json")) (by rfl)

end Rstuf
